import Mathlib

/-!
Verification development for the colour-checker application (`src/App.vue`).

The script part of `App.vue` is embedded shallowly:

* JavaScript numbers are IEEE-754 binary64 values.  Every number this
  program manipulates is a dyadic rational `m * 2 ^ e` with a 53-bit
  significand, so doubles are modelled by the type `Dy` below, and each
  arithmetic operation is the exact result rounded back to 53 bits with
  round-to-nearest, ties-to-even (the IEEE default).  All values in this
  program are far inside the normal range, so subnormals, overflow, NaN
  and infinities never arise and are not modelled.
* Strings are `List Char`; the regular expressions of the source are
  compiled by hand into decidable matchers (the compilation is explained
  at each definition).
* The reactive state (`colorInput`, `inputType`, `currentColor`) is an
  explicit `AppState` record; the event handlers become functions on it.
-/

namespace ColourChecker

/-! ### IEEE-754 binary64 model -/

/-- The value `log2fuel fuel n` is `⌊log₂ n⌋` computed by structural recursion on
`fuel` (so that the kernel can evaluate it); correct when `fuel ≥ log₂ n`. -/
def log2fuel : ℕ → ℕ → ℕ
  | 0, _ => 0
  | fuel + 1, n => if n < 2 then 0 else log2fuel fuel (n / 2) + 1

/-- Base-two logarithm `⌊log₂ n⌋` for `n ≥ 1` (and `0` for `n = 0`). -/
def natLog2 (n : ℕ) : ℕ := log2fuel n n

/-- A dyadic rational `m * 2 ^ e`.  Doubles are represented by values
whose significand `m` fits in 53 bits; the representation is not
required to be normalised. -/
structure Dy where
  m : ℤ
  e : ℤ
deriving DecidableEq

/-- The exact rational value of a dyadic. -/
def toQ (d : Dy) : ℚ := (d.m : ℚ) * (2 : ℚ) ^ d.e

/-- Round an exact dyadic to 53 significant bits, round-to-nearest
ties-to-even.  This is the IEEE rounding step applied after each exact
arithmetic operation. -/
def round53 (d : Dy) : Dy :=
  let s := d.m.natAbs
  if s = 0 then ⟨0, 0⟩
  else
    let L := natLog2 s
    if L ≤ 52 then d
    else
      let sh := L - 52
      let q := s / 2 ^ sh
      let r := s % 2 ^ sh
      let half := 2 ^ (sh - 1)
      let q' := if r < half then q else if half < r then q + 1
                else if q % 2 = 0 then q else q + 1
      let sign : ℤ := if d.m < 0 then -1 else 1
      if q' = 2 ^ 53 then ⟨sign * 2 ^ 52, d.e + sh + 1⟩
      else ⟨sign * q', d.e + sh⟩

/-- The binary64 value nearest to the positive rational `n / d`
(round-to-nearest, ties-to-even); used to interpret the decimal literals
of the source. -/
def flPos (n d : ℕ) : Dy :=
  let c : ℤ := (natLog2 n : ℤ) - (natLog2 d : ℤ)
  let e : ℤ := if (if 0 ≤ c then d * 2 ^ c.toNat ≤ n else d ≤ n * 2 ^ (-c).toNat)
               then c else c - 1
  let w : ℤ := 52 - e
  let N : ℕ := if 0 ≤ w then n * 2 ^ w.toNat else n
  let D : ℕ := if 0 ≤ w then d else d * 2 ^ (-w).toNat
  let q := N / D
  let r := N % D
  let m : ℕ := if 2 * r < D then q else if D < 2 * r then q + 1
               else if q % 2 = 0 then q else q + 1
  if m = 2 ^ 53 then ⟨2 ^ 52, e - 51⟩ else ⟨m, e - 52⟩

/-- An integer as a double (exact for the magnitudes of this program). -/
def intDy (n : ℤ) : Dy := ⟨n, 0⟩

/-- JavaScript `a * b` on doubles: exact product, correctly rounded. -/
def mulDy (a b : Dy) : Dy := round53 ⟨a.m * b.m, a.e + b.e⟩

/-- JavaScript `a + b` on doubles: exact sum (after aligning the
exponents), correctly rounded. -/
def addDy (a b : Dy) : Dy :=
  if a.e ≤ b.e then round53 ⟨a.m + b.m * 2 ^ (b.e - a.e).toNat, a.e⟩
  else round53 ⟨a.m * 2 ^ (a.e - b.e).toNat + b.m, b.e⟩

/-- JavaScript `a - b` on doubles. -/
def subDy (a b : Dy) : Dy := addDy a ⟨-b.m, b.e⟩

/-- Comparison of two dyadics (decides `toQ a ≤ toQ b`). -/
def leDy (a b : Dy) : Bool :=
  if a.e ≤ b.e then a.m ≤ b.m * 2 ^ (b.e - a.e).toNat
  else a.m * 2 ^ (a.e - b.e).toNat ≤ b.m

/-- JavaScript `Math.max` on two (non-NaN) doubles. -/
def maxDy (a b : Dy) : Dy := if leDy a b then b else a

/-- JavaScript `Math.min` on two (non-NaN) doubles. -/
def minDy (a b : Dy) : Dy := if leDy a b then a else b

/-- JavaScript `Math.round` on a double: the integer nearest to its
exact value, ties toward positive infinity. -/
def jsRoundDy (d : Dy) : ℤ :=
  if 0 ≤ d.e then d.m * 2 ^ d.e.toNat
  else Int.fdiv (2 * d.m + 2 ^ (-d.e).toNat) (2 ^ ((-d.e).toNat + 1))

/-- Rounding to the nearest integer with ties rounded half up (toward
positive infinity), on exact rationals; `⌊x + 1/2⌋`. -/
def jsRound (x : ℚ) : ℤ := ⌊x + 1/2⌋

/-- Clamp an integer to `[lo, hi]`, i.e. `max lo (min hi n)`. -/
def clampI (lo hi n : ℤ) : ℤ := max lo (min hi n)

/-! ### Data model -/

/-- A YCbCr triple as produced by `rgbToYcbcr` (integer channels). -/
structure Ycbcr where
  y : ℤ
  cb : ℤ
  cr : ℤ
deriving DecidableEq

/-- An RGB triple (integer channels; every producer in the program
yields channels in `[0, 255]`). -/
structure Rgb where
  r : ℕ
  g : ℕ
  b : ℕ
deriving DecidableEq

/-! ### Codec: RGB → YCbCr (source lines 24–35)

```js
const rgbToYcbcr = (r, g, b) => {
  const y = 0.299 * r + 0.587 * g + 0.114 * b
  const cb = 128 - 0.168736 * r - 0.331264 * g + 0.5 * b
  const cr = 128 + 0.5 * r - 0.418688 * g - 0.081312 * b
  return {
    y: Math.round(Math.max(16, Math.min(235, y))),
    cb: Math.round(Math.max(16, Math.min(240, cb))),
    cr: Math.round(Math.max(16, Math.min(240, cr)))
  }
}
```

The decimal literals denote the binary64 values nearest to them;
arithmetic is left-associated double arithmetic.  Note that the source
clamps first and rounds second. -/

/-- The double denoted by the literal `0.299`. -/
def d299 : Dy := flPos 299 1000

/-- The double denoted by the literal `0.587`. -/
def d587 : Dy := flPos 587 1000

/-- The double denoted by the literal `0.114`. -/
def d114 : Dy := flPos 114 1000

/-- The double denoted by the literal `0.168736`. -/
def d168736 : Dy := flPos 168736 1000000

/-- The double denoted by the literal `0.331264`. -/
def d331264 : Dy := flPos 331264 1000000

/-- The double denoted by the literal `0.5` (exact). -/
def dHalf : Dy := flPos 1 2

/-- The double denoted by the literal `0.418688`. -/
def d418688 : Dy := flPos 418688 1000000

/-- The double denoted by the literal `0.081312`. -/
def d081312 : Dy := flPos 81312 1000000

/-- The double value of the `y` expression in `rgbToYcbcr`. -/
def fwdY (r g b : ℕ) : Dy :=
  addDy (addDy (mulDy d299 (intDy r)) (mulDy d587 (intDy g))) (mulDy d114 (intDy b))

/-- The double value of the `cb` expression in `rgbToYcbcr`. -/
def fwdCb (r g b : ℕ) : Dy :=
  addDy (subDy (subDy (intDy 128) (mulDy d168736 (intDy r))) (mulDy d331264 (intDy g)))
    (mulDy dHalf (intDy b))

/-- The double value of the `cr` expression in `rgbToYcbcr`. -/
def fwdCr (r g b : ℕ) : Dy :=
  subDy (subDy (addDy (intDy 128) (mulDy dHalf (intDy r))) (mulDy d418688 (intDy g)))
    (mulDy d081312 (intDy b))

/-- Function `rgbToYcbcr` from the source: BT.601 forward transform in double
arithmetic; each channel is clamped (y to 16..235, cb/cr to 16..240)
and then rounded with `Math.round`. -/
def rgbToYcbcr (r g b : ℕ) : Ycbcr :=
  { y := jsRoundDy (maxDy (intDy 16) (minDy (intDy 235) (fwdY r g b))),
    cb := jsRoundDy (maxDy (intDy 16) (minDy (intDy 240) (fwdCb r g b))),
    cr := jsRoundDy (maxDy (intDy 16) (minDy (intDy 240) (fwdCr r g b))) }

/-- Claim C1's reading of `rgbToYcbcr`: the same formulas evaluated in
exact rational arithmetic, each result rounded to the nearest integer
with ties rounded half up, then clamped after rounding. -/
def rgbToYcbcrExactC1 (r g b : ℕ) : Ycbcr :=
  { y := clampI 16 235 (jsRound (0.299 * r + 0.587 * g + 0.114 * b)),
    cb := clampI 16 240 (jsRound (128 - 0.168736 * r - 0.331264 * g + 0.5 * b)),
    cr := clampI 16 240 (jsRound (128 + 0.5 * r - 0.418688 * g - 0.081312 * b)) }

/-- Amended claim C1: the formulas evaluated in binary64 double
arithmetic (as the source does), each channel rounded to the nearest
integer (ties toward positive infinity) and then clamped after
rounding. -/
def rgbToYcbcrAmendedC1 (r g b : ℕ) : Ycbcr :=
  { y := clampI 16 235 (jsRoundDy (fwdY r g b)),
    cb := clampI 16 240 (jsRoundDy (fwdCb r g b)),
    cr := clampI 16 240 (jsRoundDy (fwdCr r g b)) }

/-! ### Codec: YCbCr → RGB (source lines 38–54)

```js
const ycbcrToRgb = (y, cb, cr) => {
  const yAdj = y - 16
  const cbAdj = cb - 128
  const crAdj = cr - 128
  const r = 1.164 * yAdj + 1.596 * crAdj
  const g = 1.164 * yAdj - 0.392 * cbAdj - 0.813 * crAdj
  const b = 1.164 * yAdj + 2.017 * cbAdj
  return {
    r: Math.max(0, Math.min(255, Math.round(r))),
    g: Math.max(0, Math.min(255, Math.round(g))),
    b: Math.max(0, Math.min(255, Math.round(b)))
  }
}
```

Here the source rounds first and clamps second.  The clamped value is
a non-negative integer, extracted with `Int.toNat`. -/

/-- The double denoted by the literal `1.164`. -/
def d1164 : Dy := flPos 1164 1000

/-- The double denoted by the literal `1.596`. -/
def d1596 : Dy := flPos 1596 1000

/-- The double denoted by the literal `0.392`. -/
def d392 : Dy := flPos 392 1000

/-- The double denoted by the literal `0.813`. -/
def d813 : Dy := flPos 813 1000

/-- The double denoted by the literal `2.017`. -/
def d2017 : Dy := flPos 2017 1000

/-- The double value of the `r` expression in `ycbcrToRgb`. -/
def invR (y cb cr : ℕ) : Dy :=
  addDy (mulDy d1164 (subDy (intDy y) (intDy 16)))
    (mulDy d1596 (subDy (intDy cr) (intDy 128)))

/-- The double value of the `g` expression in `ycbcrToRgb`. -/
def invG (y cb cr : ℕ) : Dy :=
  subDy (subDy (mulDy d1164 (subDy (intDy y) (intDy 16)))
      (mulDy d392 (subDy (intDy cb) (intDy 128))))
    (mulDy d813 (subDy (intDy cr) (intDy 128)))

/-- The double value of the `b` expression in `ycbcrToRgb`. -/
def invB (y cb cr : ℕ) : Dy :=
  addDy (mulDy d1164 (subDy (intDy y) (intDy 16)))
    (mulDy d2017 (subDy (intDy cb) (intDy 128)))

/-- Function `ycbcrToRgb` from the source: BT.601 inverse transform in double
arithmetic; each channel is rounded with `Math.round` and then clamped
to `[0, 255]`. -/
def ycbcrToRgb (y cb cr : ℕ) : Rgb :=
  { r := (max 0 (min 255 (jsRoundDy (invR y cb cr)))).toNat,
    g := (max 0 (min 255 (jsRoundDy (invG y cb cr)))).toNat,
    b := (max 0 (min 255 (jsRoundDy (invB y cb cr)))).toNat }

/-- Claim C5's reading of `ycbcrToRgb`: offsets subtracted exactly, the
formulas evaluated in exact rational arithmetic, each result rounded to
the nearest integer (read as ties rounded half up, the convention the
specification fixes for the forward direction) and clamped to
`[0, 255]`. -/
def ycbcrToRgbExactC5 (y cb cr : ℕ) : Rgb :=
  { r := (clampI 0 255 (jsRound (1.164 * ((y : ℚ) - 16) + 1.596 * ((cr : ℚ) - 128)))).toNat,
    g := (clampI 0 255 (jsRound (1.164 * ((y : ℚ) - 16) - 0.392 * ((cb : ℚ) - 128)
            - 0.813 * ((cr : ℚ) - 128)))).toNat,
    b := (clampI 0 255 (jsRound (1.164 * ((y : ℚ) - 16) + 2.017 * ((cb : ℚ) - 128)))).toNat }

/-- Amended claim C5: the formulas evaluated in binary64 double
arithmetic (as the source does), each channel rounded to the nearest
integer (ties toward positive infinity) and then clamped to `[0, 255]`. -/
def ycbcrToRgbAmendedC5 (y cb cr : ℕ) : Rgb :=
  { r := (clampI 0 255 (jsRoundDy (invR y cb cr))).toNat,
    g := (clampI 0 255 (jsRoundDy (invG y cb cr))).toNat,
    b := (clampI 0 255 (jsRoundDy (invB y cb cr))).toNat }

/-! ### Codec: HEX ↔ RGB (source lines 10–21)

```js
const hexToRgb = (hex) => {
  const result = /^#?([a-f\d]{2})([a-f\d]{2})([a-f\d]{2})$/i.exec(hex)
  return result ? {
    r: parseInt(result[1], 16),
    g: parseInt(result[2], 16),
    b: parseInt(result[3], 16)
  } : null
}

const rgbToHex = (r, g, b) => {
  return "#" + ((1 << 24) + (r << 16) + (g << 8) + b).toString(16).slice(1)
}
```
-/

/-- The character class `[a-f\d]` under the `i` flag: a hexadecimal
digit, either case. -/
def isHexDigitChar (c : Char) : Bool :=
  ('0' ≤ c && c ≤ '9') || ('a' ≤ c && c ≤ 'f') || ('A' ≤ c && c ≤ 'F')

/-- The value of one hexadecimal digit, as `parseInt(_, 16)` assigns it. -/
def hexDigitVal (c : Char) : ℕ :=
  if '0' ≤ c && c ≤ '9' then c.toNat - '0'.toNat
  else if 'a' ≤ c && c ≤ 'f' then c.toNat - 'a'.toNat + 10
  else if 'A' ≤ c && c ≤ 'F' then c.toNat - 'A'.toNat + 10
  else 0

/-- Drop one leading `#` if present (the `#?` of the regular
expressions; `#` is not a hexadecimal digit, so the regex engine's
backtracking over the optional `#` never changes the outcome and the
match is equivalent to this strip followed by the anchored remainder). -/
def stripHash : List Char → List Char
  | '#' :: rest => rest
  | s => s

/-- Function `hexToRgb` from the source: anchored match of one optional `#` and
exactly six hexadecimal digits, grouped in three 2-digit groups, each
parsed base 16. -/
def hexToRgb (s : List Char) : Option Rgb :=
  match stripHash s with
  | [c1, c2, c3, c4, c5, c6] =>
    if isHexDigitChar c1 && isHexDigitChar c2 && isHexDigitChar c3 &&
       isHexDigitChar c4 && isHexDigitChar c5 && isHexDigitChar c6 then
      some ⟨16 * hexDigitVal c1 + hexDigitVal c2,
            16 * hexDigitVal c3 + hexDigitVal c4,
            16 * hexDigitVal c5 + hexDigitVal c6⟩
    else none
  | _ => none

/-- Digit characters of `Number.prototype.toString(16)`: lowercase. -/
def hexDigitChar (n : ℕ) : Char :=
  if n < 10 then Char.ofNat ('0'.toNat + n) else Char.ofNat ('a'.toNat + (n - 10))

/-- The base-16 string representation of a positive natural number,
most significant digit first, lowercase — `n.toString(16)`. -/
def natToHexDigits (n : ℕ) : List Char := (Nat.digits 16 n).reverse.map hexDigitChar

/-- Function `rgbToHex` from the source: `"#" + ((1 << 24) + (r << 16) + (g << 8)
+ b).toString(16).slice(1)`.  For channels in `[0, 255]` the shifted sum
is exact in doubles and equals `16777216 + r * 65536 + g * 256 + b`. -/
def rgbToHex (r g b : ℕ) : List Char :=
  '#' :: (natToHexDigits (16777216 + r * 65536 + g * 256 + b)).drop 1

/-- One channel as two hexadecimal digits (most significant first). -/
def twoHexDigits (hexDigit : ℕ → Char) (n : ℕ) : List Char :=
  [hexDigit (n / 16), hexDigit (n % 16)]

/-- Uppercase hexadecimal digit characters. -/
def hexDigitCharUpper (n : ℕ) : Char :=
  if n < 10 then Char.ofNat ('0'.toNat + n) else Char.ofNat ('A'.toNat + (n - 10))

/-- Claim C3's reading of `rgbToHex`: a leading `#` followed by each
channel as a 2-digit uppercase hexadecimal number. -/
def rgbToHexUpperC3 (r g b : ℕ) : List Char :=
  '#' :: (twoHexDigits hexDigitCharUpper r ++ twoHexDigits hexDigitCharUpper g ++
    twoHexDigits hexDigitCharUpper b)

/-- Amended claim C3: a leading `#` followed by each channel as a
2-digit lowercase hexadecimal number. -/
def rgbToHexLowerC3 (r g b : ℕ) : List Char :=
  '#' :: (twoHexDigits hexDigitChar r ++ twoHexDigits hexDigitChar g ++
    twoHexDigits hexDigitChar b)

/-! ### Validator / parser (source lines 73–114)

```js
const validateAndConvertColor = () => {
  if (!colorInput.value) return
  let rgb = null
  switch (inputType.value) {
    case 'hex':
      if (/^#?[0-9A-Fa-f]{6}$/.test(colorInput.value)) {
        const hex = colorInput.value.startsWith('#') ? colorInput.value : '#' + colorInput.value
        rgb = hexToRgb(hex)
        if (rgb) currentColor.value = hex
      }
      break
    case 'rgb':
      const rgbMatch = colorInput.value.match(/(\d+),\s*(\d+),\s*(\d+)/)
      if (rgbMatch) {
        const r = parseInt(rgbMatch[1]); const g = parseInt(rgbMatch[2]); const b = parseInt(rgbMatch[3])
        if (r >= 0 && r <= 255 && g >= 0 && g <= 255 && b >= 0 && b <= 255) {
          rgb = { r, g, b }
          currentColor.value = rgbToHex(r, g, b)
        }
      }
      break
    case 'ycbcr':
      const ycbcrMatch = colorInput.value.match(/(\d+),\s*(\d+),\s*(\d+)/)
      if (ycbcrMatch) {
        const y = parseInt(ycbcrMatch[1]); const cb = parseInt(ycbcrMatch[2]); const cr = parseInt(ycbcrMatch[3])
        if (y >= 16 && y <= 235 && cb >= 16 && cb <= 240 && cr >= 16 && cr <= 240) {
          rgb = ycbcrToRgb(y, cb, cr)
          currentColor.value = rgbToHex(rgb.r, rgb.g, rgb.b)
        }
      }
      break
  }
}
```
-/

/-- The anchored whole-string test of one optional `#` followed by
exactly six hexadecimal digits.  This is both the source's validation
regex (line 80) and the pattern named by the specification. -/
def hexPattern (s : List Char) : Bool :=
  (stripHash s).length = 6 && (stripHash s).all isHexDigitChar

/-- The expression `colorInput.value.startsWith('#') ? colorInput.value : '#' +
colorInput.value` — the `const hex` binding of the source. -/
def withHash (s : List Char) : List Char :=
  if s.head? = some '#' then s else '#' :: s

/-- The parse the specification describes for a matching hex string:
the three 2-digit groups as base-16 bytes (total, with a junk value on
non-matching shapes; only used under `hexPattern`). -/
def parseHex6 : List Char → Rgb
  | [c1, c2, c3, c4, c5, c6] =>
    ⟨16 * hexDigitVal c1 + hexDigitVal c2,
     16 * hexDigitVal c3 + hexDigitVal c4,
     16 * hexDigitVal c5 + hexDigitVal c6⟩
  | _ => ⟨0, 0, 0⟩

/-- The character class `\d`. -/
def isDigitChar (c : Char) : Bool := '0' ≤ c && c ≤ '9'

/-- The character class `\s` of ECMA-262: WhiteSpace together with
LineTerminator — tab, LF, VT, FF, CR, space, NBSP (U+00A0), the Unicode
Space_Separator characters (U+1680, U+2000–U+200A, U+202F, U+205F,
U+3000), the line and paragraph separators (U+2028, U+2029) and ZWNBSP
(U+FEFF).  Disjoint from `\d` and from `,`. -/
def isSpaceChar (c : Char) : Bool :=
  c = ' ' || c = '\t' || c = '\n' || c = '\r' || c = '\x0b' || c = '\x0c' ||
  c = '\u00A0' || c = '\u1680' || ('\u2000' ≤ c && c ≤ '\u200A') ||
  c = '\u2028' || c = '\u2029' || c = '\u202F' || c = '\u205F' ||
  c = '\u3000' || c = '\uFEFF'

/-- Function `parseInt` on a non-empty string of decimal digits. -/
def digitsToNat (ds : List Char) : ℕ :=
  ds.foldl (fun a c => 10 * a + (c.toNat - '0'.toNat)) 0

/-- Attempt to match `(\d+),\s*(\d+),\s*(\d+)` at the start of `s`.
Since `\d`, `,` and `\s` are pairwise disjoint character classes, the
regex engine's greedy maximal munch with backtracking is equivalent to
this deterministic maximal munch. -/
def matchTripleAt (s : List Char) : Option (ℕ × ℕ × ℕ) :=
  let d1 := s.takeWhile isDigitChar
  if d1.isEmpty then none
  else
    match s.dropWhile isDigitChar with
    | ',' :: r2 =>
      let r3 := r2.dropWhile isSpaceChar
      let d2 := r3.takeWhile isDigitChar
      if d2.isEmpty then none
      else
        match r3.dropWhile isDigitChar with
        | ',' :: r5 =>
          let r6 := r5.dropWhile isSpaceChar
          let d3 := r6.takeWhile isDigitChar
          if d3.isEmpty then none
          else some (digitsToNat d1, digitsToNat d2, digitsToNat d3)
        | _ => none
    | _ => none

/-- The call `s.match(/(\d+),\s*(\d+),\s*(\d+)/)`: the leftmost match — start
positions are tried left to right and the first position admitting a
match wins, as the JavaScript regex engine does. -/
def scanTriple : List Char → Option (ℕ × ℕ × ℕ)
  | [] => none
  | c :: rest =>
    match matchTripleAt (c :: rest) with
    | some v => some v
    | none => scanTriple rest

/-- The three declared input formats. -/
inductive InputType
  | hex
  | rgb
  | ycbcr
deriving DecidableEq

/-- The reactive state of the component: the raw input text, the
declared input format, and the last accepted colour (a hex string). -/
structure AppState where
  colorInput : List Char
  inputType : InputType
  currentColor : List Char
deriving DecidableEq

/-- Function `validateAndConvertColor` from the source, as a function on the
state.  (`parseInt` on `\d+` is always non-negative, so the `r >= 0`
style checks of the source are vacuous and drop out in the `ℕ` model.) -/
def validateAndConvertColor (s : AppState) : AppState :=
  if s.colorInput = [] then s
  else
    match s.inputType with
    | .hex =>
      if hexPattern s.colorInput then
        match hexToRgb (withHash s.colorInput) with
        | some _ => { s with currentColor := withHash s.colorInput }
        | none => s
      else s
    | .rgb =>
      match scanTriple s.colorInput with
      | some (r, g, b) =>
        if r ≤ 255 && g ≤ 255 && b ≤ 255 then { s with currentColor := rgbToHex r g b }
        else s
      | none => s
    | .ycbcr =>
      match scanTriple s.colorInput with
      | some (y, cb, cr) =>
        if 16 ≤ y && y ≤ 235 && 16 ≤ cb && cb ≤ 240 && 16 ≤ cr && cr ≤ 240 then
          { s with currentColor :=
              rgbToHex (ycbcrToRgb y cb cr).r (ycbcrToRgb y cb cr).g (ycbcrToRgb y cb cr).b }
        else s
      | none => s

/-- Whether `validateAndConvertColor` accepts the current input (the
conditions under which the source assigns `currentColor`). -/
def accepts (s : AppState) : Bool :=
  if s.colorInput = [] then false
  else
    match s.inputType with
    | .hex => hexPattern s.colorInput
    | .rgb =>
      match scanTriple s.colorInput with
      | some (r, g, b) => r ≤ 255 && g ≤ 255 && b ≤ 255
      | none => false
    | .ycbcr =>
      match scanTriple s.colorInput with
      | some (y, cb, cr) => 16 ≤ y && y ≤ 235 && 16 ≤ cb && cb ≤ 240 && 16 ≤ cr && cr ≤ 240
      | none => false

/-- The derived display structure (source lines 57–70): `null` when the
current colour is empty or unparsable, otherwise the uppercased hex
string with the RGB and YCbCr triples recomputed from it. -/
structure ColorInfo where
  hex : List Char
  rgb : Rgb
  ycbcr : Ycbcr
deriving DecidableEq

/-- Function `colorInfo` from the source (`toUpperCase` is `Char.toUpper`
pointwise on these ASCII strings). -/
def colorInfo (s : AppState) : Option ColorInfo :=
  if s.currentColor = [] then none
  else
    match hexToRgb s.currentColor with
    | none => none
    | some rgb => some ⟨s.currentColor.map Char.toUpper, rgb, rgbToYcbcr rgb.r rgb.g rgb.b⟩

/-- Selecting a format button assigns `inputType`; the watcher on
`inputType` (source lines 117–119) clears `colorInput`, and fires only
when the value actually changes (Vue watchers compare with `Object.is`). -/
def setInputType (t : InputType) (s : AppState) : AppState :=
  if t = s.inputType then s else { s with inputType := t, colorInput := [] }

/-- The UI events that reach the state: editing the text field (the
`v-model` write plus the `@input` handler), pressing the convert
button, and selecting a format. -/
inductive Event
  | typeInput (text : List Char)
  | clickConvert
  | selectType (t : InputType)

/-- One step of the event loop. -/
def step : Event → AppState → AppState
  | .typeInput text, s => validateAndConvertColor { s with colorInput := text }
  | .clickConvert, s => validateAndConvertColor s
  | .selectType t, s => setInputType t s

/-- The initial state: empty input, `hex` format, default colour
`'#3B82F6'`. -/
def initState : AppState :=
  ⟨[], .hex, ['#', '3', 'B', '8', '2', 'F', '6']⟩

/-- The state after a sequence of UI events from the initial state. -/
def run (es : List Event) : AppState := es.foldl (fun s e => step e s) initState

/-- The concrete state used to witness C7: input `"59, 130, 246"`
declared as `rgb`. -/
def c7state : AppState :=
  ⟨['5', '9', ',', ' ', '1', '3', '0', ',', ' ', '2', '4', '6'], InputType.rgb,
   ['#', 'a', 'b', 'c', 'd', 'e', 'f']⟩

/-- The concrete state used to witness C8: input `"zz"` declared as
`hex` is rejected. -/
def c8state : AppState :=
  ⟨['z', 'z'], InputType.hex, ['#', '3', 'B', '8', '2', 'F', '6']⟩

/-! ### Semantics of the double model -/

theorem floor_half : ⌊(1/2 : ℚ)⌋ = 0 := by
  rw [Int.floor_eq_zero_iff, Set.mem_Ico]
  constructor <;> norm_num

theorem jsRound_intCast (n : ℤ) : jsRound (n : ℚ) = n := by
  unfold jsRound
  rw [Int.floor_int_add, floor_half, add_zero]

theorem jsRound_mono : Monotone jsRound := fun x y h =>
  Int.floor_mono (by linarith)

theorem jsRound_clamp (lo hi : ℤ) (x : ℚ) :
    jsRound (max (lo : ℚ) (min (hi : ℚ) x)) = clampI lo hi (jsRound x) := by
  rw [jsRound_mono.map_max, jsRound_mono.map_min, jsRound_intCast, jsRound_intCast, clampI]

theorem toQ_intDy (n : ℤ) : toQ (intDy n) = (n : ℚ) := by
  simp [toQ, intDy]

theorem jsRoundDy_eq (d : Dy) : jsRoundDy d = jsRound (toQ d) := by
  unfold jsRoundDy toQ jsRound
  split
  · next h =>
    have he : (2 : ℚ) ^ d.e = (2 : ℚ) ^ d.e.toNat := by
      rw [← zpow_natCast]; congr 1; omega
    rw [he, show (d.m : ℚ) * (2 : ℚ) ^ d.e.toNat = ((d.m * 2 ^ d.e.toNat : ℤ) : ℚ) by push_cast; ring,
      Int.floor_int_add, floor_half, add_zero]
  · next h =>
    set k := (-d.e).toNat with hk
    have hfd : Int.fdiv (2 * d.m + 2 ^ k) (2 ^ (k + 1)) = (2 * d.m + 2 ^ k) / ((2 ^ (k + 1) : ℕ) : ℤ) := by
      rw [Int.fdiv_eq_ediv _ (by positivity)]
      norm_num
    rw [hfd, ← Rat.floor_intCast_div_natCast]
    congr 1
    have he : (2 : ℚ) ^ d.e = ((2 : ℚ) ^ k)⁻¹ := by
      rw [← zpow_natCast, ← zpow_neg]; congr 1; omega
    rw [he]
    have h2 : ((2 : ℚ) ^ k) ≠ 0 := by positivity
    push_cast
    field_simp
    ring

theorem leDy_iff (a b : Dy) : leDy a b = true ↔ toQ a ≤ toQ b := by
  unfold leDy toQ
  split
  · next h =>
    have he : (2 : ℚ) ^ b.e = (2 : ℚ) ^ a.e * (2 : ℚ) ^ ((b.e - a.e).toNat : ℤ) := by
      rw [← zpow_add₀ (by norm_num : (2:ℚ) ≠ 0)]; congr 1; omega
    rw [he, zpow_natCast]
    rw [decide_eq_true_iff]
    constructor
    · intro hle
      have : (a.m : ℚ) ≤ (b.m : ℚ) * 2 ^ (b.e - a.e).toNat := by
        exact_mod_cast hle
      calc (a.m : ℚ) * (2:ℚ) ^ a.e ≤ ((b.m : ℚ) * 2 ^ (b.e - a.e).toNat) * (2:ℚ) ^ a.e := by
            exact (mul_le_mul_right (by positivity)).mpr this
        _ = (b.m : ℚ) * ((2:ℚ) ^ a.e * 2 ^ (b.e - a.e).toNat) := by ring
    · intro hle
      have h1 : (a.m : ℚ) ≤ (b.m : ℚ) * 2 ^ (b.e - a.e).toNat := by
        have h2 : ((b.m : ℚ) * ((2:ℚ) ^ a.e * 2 ^ (b.e - a.e).toNat)) = ((b.m : ℚ) * 2 ^ (b.e - a.e).toNat) * (2:ℚ) ^ a.e := by ring
        rw [h2] at hle
        exact (mul_le_mul_right (by positivity)).mp hle
      exact_mod_cast h1
  · next h =>
    have he : (2 : ℚ) ^ a.e = (2 : ℚ) ^ b.e * (2 : ℚ) ^ ((a.e - b.e).toNat : ℤ) := by
      rw [← zpow_add₀ (by norm_num : (2:ℚ) ≠ 0)]; congr 1; omega
    rw [he, zpow_natCast]
    rw [decide_eq_true_iff]
    constructor
    · intro hle
      have h1 : (a.m : ℚ) * 2 ^ (a.e - b.e).toNat ≤ (b.m : ℚ) := by exact_mod_cast hle
      calc (a.m : ℚ) * ((2:ℚ) ^ b.e * 2 ^ (a.e - b.e).toNat)
            = ((a.m : ℚ) * 2 ^ (a.e - b.e).toNat) * (2:ℚ) ^ b.e := by ring
        _ ≤ (b.m : ℚ) * (2:ℚ) ^ b.e := (mul_le_mul_right (by positivity)).mpr h1
    · intro hle
      have h2 : ((a.m : ℚ) * ((2:ℚ) ^ b.e * 2 ^ (a.e - b.e).toNat)) = ((a.m : ℚ) * 2 ^ (a.e - b.e).toNat) * (2:ℚ) ^ b.e := by ring
      rw [h2] at hle
      have h1 := (mul_le_mul_right (by positivity : (0:ℚ) < (2:ℚ) ^ b.e)).mp hle
      exact_mod_cast h1

theorem toQ_maxDy (a b : Dy) : toQ (maxDy a b) = max (toQ a) (toQ b) := by
  unfold maxDy
  split
  · next h => rw [max_eq_right ((leDy_iff a b).mp h)]
  · next h =>
    have : ¬ toQ a ≤ toQ b := fun hc => h ((leDy_iff a b).mpr hc)
    rw [max_eq_left (le_of_not_le this)]

theorem toQ_minDy (a b : Dy) : toQ (minDy a b) = min (toQ a) (toQ b) := by
  unfold minDy
  split
  · next h => rw [min_eq_left ((leDy_iff a b).mp h)]
  · next h =>
    have : ¬ toQ a ≤ toQ b := fun hc => h ((leDy_iff a b).mpr hc)
    rw [min_eq_right (le_of_not_le this)]

/-- The source's `Math.round(Math.max(lo, Math.min(hi, v)))` equals
round-then-clamp: clamping with integer bounds commutes with rounding. -/
theorem jsRoundDy_clamp (lo hi : ℤ) (v : Dy) :
    jsRoundDy (maxDy (intDy lo) (minDy (intDy hi) v)) = clampI lo hi (jsRoundDy v) := by
  rw [jsRoundDy_eq, toQ_maxDy, toQ_minDy, toQ_intDy, toQ_intDy, jsRound_clamp, jsRoundDy_eq]

theorem clampI_le {lo hi : ℤ} (h : lo ≤ hi) (n : ℤ) : clampI lo hi n ≤ hi :=
  max_le h (min_le_left _ _)

theorem le_clampI (lo hi n : ℤ) : lo ≤ clampI lo hi n := le_max_left _ _

/-! ### Claims C1, C4, C5 -/

/-- C1, counterexample: at `(r,g,b) = (0,21,21)` the exact cr value is
`117.5`, which the claim rounds half up to `118` and clamps to `118`;
the double computation yields a value just below `117.5` and the source
returns `117`. -/
theorem rgbToYcbcr_ne_exact_at_0_21_21 : rgbToYcbcr 0 21 21 ≠ rgbToYcbcrExactC1 0 21 21 := by
  have h1 : (rgbToYcbcr 0 21 21).cr = 117 := by decide
  have h2 : (rgbToYcbcrExactC1 0 21 21).cr = 118 := by
    simp only [rgbToYcbcrExactC1]
    rw [show (128 + 0.5 * ((0:ℕ):ℚ) - 0.418688 * ((21:ℕ):ℚ) - 0.081312 * ((21:ℕ):ℚ)) = ((235:ℚ)/2) by push_cast; norm_num]
    unfold jsRound
    rw [show ((235:ℚ)/2 + 1/2) = ((118:ℤ):ℚ) by norm_num, Int.floor_intCast]
    rfl
  intro h
  rw [h, h2] at h1
  exact absurd h1 (by decide)

/-- C1 (amended): for all channels in `[0,255]`, `rgbToYcbcr` equals
the BT.601 formulas evaluated in binary64 double arithmetic, rounded to
the nearest integer (ties toward +∞) and then clamped (y to `[16,235]`,
cb/cr to `[16,240]`); rounding before or after clamping is equivalent
here because the clamp bounds are integers. -/
theorem rgbToYcbcr_eq_amended (r g b : ℕ) (hr : r ≤ 255) (hg : g ≤ 255) (hb : b ≤ 255) :
    rgbToYcbcr r g b = rgbToYcbcrAmendedC1 r g b := by
  unfold rgbToYcbcr rgbToYcbcrAmendedC1
  rw [jsRoundDy_clamp, jsRoundDy_clamp, jsRoundDy_clamp]

theorem rgbToYcbcr_eq_amended_witness :
    (0:ℕ) ≤ 255 ∧ rgbToYcbcr 0 21 21 = rgbToYcbcrAmendedC1 0 21 21 :=
  ⟨by decide, rgbToYcbcr_eq_amended 0 21 21 (by decide) (by decide) (by decide)⟩

/-- C4: the output ranges of `rgbToYcbcr` always hold (for any inputs,
in particular all of `[0,255]`): the clamp bounds are integers, so the
round of the clamped value stays inside them. -/
theorem rgbToYcbcr_range (r g b : ℕ) (hr : r ≤ 255) (hg : g ≤ 255) (hb : b ≤ 255) :
    16 ≤ (rgbToYcbcr r g b).y ∧ (rgbToYcbcr r g b).y ≤ 235 ∧
    16 ≤ (rgbToYcbcr r g b).cb ∧ (rgbToYcbcr r g b).cb ≤ 240 ∧
    16 ≤ (rgbToYcbcr r g b).cr ∧ (rgbToYcbcr r g b).cr ≤ 240 := by
  have hy : (rgbToYcbcr r g b).y = clampI 16 235 (jsRoundDy (fwdY r g b)) := by
    simp only [rgbToYcbcr]
    exact jsRoundDy_clamp 16 235 _
  have hcb : (rgbToYcbcr r g b).cb = clampI 16 240 (jsRoundDy (fwdCb r g b)) := by
    simp only [rgbToYcbcr]
    exact jsRoundDy_clamp 16 240 _
  have hcr : (rgbToYcbcr r g b).cr = clampI 16 240 (jsRoundDy (fwdCr r g b)) := by
    simp only [rgbToYcbcr]
    exact jsRoundDy_clamp 16 240 _
  rw [hy, hcb, hcr]
  exact ⟨le_clampI _ _ _, clampI_le (by norm_num) _, le_clampI _ _ _,
    clampI_le (by norm_num) _, le_clampI _ _ _, clampI_le (by norm_num) _⟩

theorem rgbToYcbcr_range_witness :
    (255:ℕ) ≤ 255 ∧
    (16 ≤ (rgbToYcbcr 255 255 255).y ∧ (rgbToYcbcr 255 255 255).y ≤ 235 ∧
     16 ≤ (rgbToYcbcr 255 255 255).cb ∧ (rgbToYcbcr 255 255 255).cb ≤ 240 ∧
     16 ≤ (rgbToYcbcr 255 255 255).cr ∧ (rgbToYcbcr 255 255 255).cr ≤ 240) :=
  ⟨by decide, rgbToYcbcr_range 255 255 255 (by decide) (by decide) (by decide)⟩

/-- C5, counterexample: at `(y,cb,cr) = (16,65,20)` the exact g value is
`112.5`, which rounds (half up) to `113`; the double computation yields
a value just below `112.5` and the source returns `112`. -/
theorem ycbcrToRgb_ne_exact_at_16_65_20 : ycbcrToRgb 16 65 20 ≠ ycbcrToRgbExactC5 16 65 20 := by
  have h1 : (ycbcrToRgb 16 65 20).g = 112 := by decide
  have h2 : (ycbcrToRgbExactC5 16 65 20).g = 113 := by
    simp only [ycbcrToRgbExactC5]
    rw [show (1.164 * (((16:ℕ):ℚ) - 16) - 0.392 * (((65:ℕ):ℚ) - 128) - 0.813 * (((20:ℕ):ℚ) - 128)) = ((225:ℚ)/2) by push_cast; norm_num]
    unfold jsRound
    rw [show ((225:ℚ)/2 + 1/2) = ((113:ℤ):ℚ) by norm_num, Int.floor_intCast]
    rfl
  intro h
  rw [h, h2] at h1
  exact absurd h1 (by decide)

/-- C5 (amended): for y in `[16,235]` and cb, cr in `[16,240]`,
`ycbcrToRgb` equals the inverse BT.601 formulas evaluated in binary64
double arithmetic, rounded to the nearest integer (ties toward +∞) and
then clamped to `[0,255]`; in particular every output channel lies in
`[0,255]`. -/
theorem ycbcrToRgb_eq_amended (y cb cr : ℕ) (hy1 : 16 ≤ y) (hy2 : y ≤ 235)
    (hcb1 : 16 ≤ cb) (hcb2 : cb ≤ 240) (hcr1 : 16 ≤ cr) (hcr2 : cr ≤ 240) :
    ycbcrToRgb y cb cr = ycbcrToRgbAmendedC5 y cb cr ∧
    (ycbcrToRgb y cb cr).r ≤ 255 ∧ (ycbcrToRgb y cb cr).g ≤ 255 ∧ (ycbcrToRgb y cb cr).b ≤ 255 := by
  refine ⟨rfl, ?_, ?_, ?_⟩ <;>
  · simp only [ycbcrToRgb]
    rw [Int.toNat_le]
    exact max_le (by norm_num) (le_trans (min_le_left _ _) (by norm_num))

theorem ycbcrToRgb_eq_amended_witness :
    (16:ℕ) ≤ 235 ∧
    (ycbcrToRgb 16 65 20 = ycbcrToRgbAmendedC5 16 65 20 ∧
     (ycbcrToRgb 16 65 20).r ≤ 255 ∧ (ycbcrToRgb 16 65 20).g ≤ 255 ∧ (ycbcrToRgb 16 65 20).b ≤ 255) :=
  ⟨by decide, ycbcrToRgb_eq_amended 16 65 20 (by decide) (by decide) (by decide)
    (by decide) (by decide) (by decide)⟩

/-! ### Claims C2, C3, C6: the HEX codec -/

theorem digits_rgb (r g b : ℕ) (hr : r ≤ 255) (hg : g ≤ 255) (hb : b ≤ 255) :
    Nat.digits 16 (16777216 + r * 65536 + g * 256 + b) =
      [b % 16, b / 16, g % 16, g / 16, r % 16, r / 16, 1] := by
  have h16 : (1:ℕ) < 16 := by norm_num
  have e1 : (16777216 + r * 65536 + g * 256 + b) / 16 = 1048576 + r * 4096 + g * 16 + b / 16 := by
    omega
  have e2 : (1048576 + r * 4096 + g * 16 + b / 16) / 16 = 65536 + r * 256 + g := by omega
  have e3 : (65536 + r * 256 + g) / 16 = 4096 + r * 16 + g / 16 := by omega
  have e4 : (4096 + r * 16 + g / 16) / 16 = 256 + r := by omega
  have e5 : (256 + r) / 16 = 16 + r / 16 := by omega
  have e6 : (16 + r / 16) / 16 = 1 := by omega
  rw [Nat.digits_def' h16 (by omega), e1, Nat.digits_def' h16 (by omega), e2,
    Nat.digits_def' h16 (by omega), e3, Nat.digits_def' h16 (by omega), e4,
    Nat.digits_def' h16 (by omega), e5, Nat.digits_def' h16 (by omega), e6,
    Nat.digits_def' h16 (by omega)]
  norm_num
  exact ⟨by omega, by omega, by omega, by omega, by omega, by omega⟩

/-- The string produced by `rgbToHex`, channel by channel. -/
theorem rgbToHex_eq (r g b : ℕ) (hr : r ≤ 255) (hg : g ≤ 255) (hb : b ≤ 255) :
    rgbToHex r g b = '#' :: [hexDigitChar (r / 16), hexDigitChar (r % 16),
      hexDigitChar (g / 16), hexDigitChar (g % 16),
      hexDigitChar (b / 16), hexDigitChar (b % 16)] := by
  unfold rgbToHex natToHexDigits
  rw [digits_rgb r g b hr hg hb]
  rfl

theorem isHexDigitChar_hexDigitChar (k : ℕ) (hk : k < 16) :
    isHexDigitChar (hexDigitChar k) = true := by
  interval_cases k <;> decide

theorem hexDigitVal_hexDigitChar (k : ℕ) (hk : k < 16) :
    hexDigitVal (hexDigitChar k) = k := by
  interval_cases k <;> decide

/-- The HEX↔RGB round trip, shared by C2 and the reachability
invariant C10. -/
theorem hexToRgb_rgbToHex (r g b : ℕ) (hr : r ≤ 255) (hg : g ≤ 255) (hb : b ≤ 255) :
    hexToRgb (rgbToHex r g b) = some ⟨r, g, b⟩ := by
  rw [rgbToHex_eq r g b hr hg hb]
  show (if isHexDigitChar (hexDigitChar (r / 16)) && isHexDigitChar (hexDigitChar (r % 16)) &&
       isHexDigitChar (hexDigitChar (g / 16)) && isHexDigitChar (hexDigitChar (g % 16)) &&
       isHexDigitChar (hexDigitChar (b / 16)) && isHexDigitChar (hexDigitChar (b % 16)) then
      _ else none) = _
  rw [isHexDigitChar_hexDigitChar _ (by omega), isHexDigitChar_hexDigitChar _ (by omega),
    isHexDigitChar_hexDigitChar _ (by omega), isHexDigitChar_hexDigitChar _ (by omega),
    isHexDigitChar_hexDigitChar _ (by omega), isHexDigitChar_hexDigitChar _ (by omega)]
  simp only [Bool.and_self, if_true]
  rw [hexDigitVal_hexDigitChar _ (by omega), hexDigitVal_hexDigitChar _ (by omega),
    hexDigitVal_hexDigitChar _ (by omega), hexDigitVal_hexDigitChar _ (by omega),
    hexDigitVal_hexDigitChar _ (by omega), hexDigitVal_hexDigitChar _ (by omega)]
  have : 16 * (r / 16) + r % 16 = r := by omega
  rw [this]
  have : 16 * (g / 16) + g % 16 = g := by omega
  rw [this]
  have : 16 * (b / 16) + b % 16 = b := by omega
  rw [this]

/-- C2: the HEX↔RGB round trip is lossless. -/
theorem hex_rgb_roundtrip (r g b : ℕ) (hr : r ≤ 255) (hg : g ≤ 255) (hb : b ≤ 255) :
    hexToRgb (rgbToHex r g b) = some ⟨r, g, b⟩ :=
  hexToRgb_rgbToHex r g b hr hg hb

theorem hex_rgb_roundtrip_witness :
    (59:ℕ) ≤ 255 ∧ hexToRgb (rgbToHex 59 130 246) = some ⟨59, 130, 246⟩ :=
  ⟨by decide, hex_rgb_roundtrip 59 130 246 (by decide) (by decide) (by decide)⟩

/-- C3, counterexample: `rgbToHex(255,255,255)` is `"#ffffff"`
(JavaScript `toString(16)` produces lowercase digits), not the
uppercase `"#FFFFFF"` the claim describes. -/
theorem rgbToHex_ne_upper_at_255 : rgbToHex 255 255 255 ≠ rgbToHexUpperC3 255 255 255 := by
  rw [rgbToHex_eq 255 255 255 (by norm_num) (by norm_num) (by norm_num)]
  decide

/-- C3 (amended): `rgbToHex` returns `'#'` followed by each channel as
a 2-digit lowercase hexadecimal number. -/
theorem rgbToHex_lower (r g b : ℕ) (hr : r ≤ 255) (hg : g ≤ 255) (hb : b ≤ 255) :
    rgbToHex r g b = rgbToHexLowerC3 r g b := by
  rw [rgbToHex_eq r g b hr hg hb]
  rfl

theorem rgbToHex_lower_witness :
    (255:ℕ) ≤ 255 ∧ rgbToHex 255 255 255 = rgbToHexLowerC3 255 255 255 :=
  ⟨by decide, rgbToHex_lower 255 255 255 (by decide) (by decide) (by decide)⟩

/-- C6: `hexToRgb` succeeds exactly on the strings matching the
anchored pattern (optional `#`, then exactly six hexadecimal digits of
either case), returning the base-16 parse of the three 2-digit groups,
and fails on every other string. -/
theorem hexToRgb_characterization (s : List Char) :
    hexToRgb s = if hexPattern s then some (parseHex6 (stripHash s)) else none := by
  unfold hexToRgb hexPattern parseHex6
  rcases stripHash s with _ | ⟨c1, _ | ⟨c2, _ | ⟨c3, _ | ⟨c4, _ | ⟨c5, _ | ⟨c6, _ | ⟨c7, t⟩⟩⟩⟩⟩⟩⟩ <;>
    simp [List.all_cons, Bool.and_assoc]

/-! ### Claims C7, C8, C9: the validator on the state -/

theorem validate_hex_eq (s : AppState) (h : s.colorInput ≠ []) (ht : s.inputType = InputType.hex) :
    validateAndConvertColor s =
      if hexPattern s.colorInput then
        match hexToRgb (withHash s.colorInput) with
        | some _ => { s with currentColor := withHash s.colorInput }
        | none => s
      else s := by
  unfold validateAndConvertColor
  rw [if_neg h, ht]

theorem validate_rgb_eq (s : AppState) (h : s.colorInput ≠ []) (ht : s.inputType = InputType.rgb) :
    validateAndConvertColor s =
      match scanTriple s.colorInput with
      | some (r, g, b) =>
        if r ≤ 255 ∧ g ≤ 255 ∧ b ≤ 255 then { s with currentColor := rgbToHex r g b } else s
      | none => s := by
  unfold validateAndConvertColor
  rw [if_neg h, ht]
  cases hsc : scanTriple s.colorInput with
  | none => rfl
  | some v =>
    obtain ⟨r, g, b⟩ := v
    show (if (r ≤ 255 && g ≤ 255 && b ≤ 255) = true then
        { colorInput := s.colorInput, inputType := InputType.rgb, currentColor := rgbToHex r g b }
      else s) =
      if r ≤ 255 ∧ g ≤ 255 ∧ b ≤ 255 then
        { colorInput := s.colorInput, inputType := InputType.rgb, currentColor := rgbToHex r g b }
      else s
    by_cases hc : r ≤ 255 ∧ g ≤ 255 ∧ b ≤ 255
    · rw [if_pos hc, if_pos]
      simp [hc.1, hc.2.1, hc.2.2]
    · rw [if_neg hc, if_neg]
      simp only [Bool.and_eq_true, decide_eq_true_eq]
      tauto

theorem validate_ycbcr_eq (s : AppState) (h : s.colorInput ≠ [])
    (ht : s.inputType = InputType.ycbcr) :
    validateAndConvertColor s =
      match scanTriple s.colorInput with
      | some (y, cb, cr) =>
        if 16 ≤ y ∧ y ≤ 235 ∧ 16 ≤ cb ∧ cb ≤ 240 ∧ 16 ≤ cr ∧ cr ≤ 240 then
          { s with currentColor :=
              rgbToHex (ycbcrToRgb y cb cr).r (ycbcrToRgb y cb cr).g (ycbcrToRgb y cb cr).b }
        else s
      | none => s := by
  unfold validateAndConvertColor
  rw [if_neg h, ht]
  cases hsc : scanTriple s.colorInput with
  | none => rfl
  | some v =>
    obtain ⟨y, cb, cr⟩ := v
    show (if (16 ≤ y && y ≤ 235 && 16 ≤ cb && cb ≤ 240 && 16 ≤ cr && cr ≤ 240) = true then
        { colorInput := s.colorInput, inputType := InputType.ycbcr, currentColor :=
            rgbToHex (ycbcrToRgb y cb cr).r (ycbcrToRgb y cb cr).g (ycbcrToRgb y cb cr).b }
      else s) =
      if 16 ≤ y ∧ y ≤ 235 ∧ 16 ≤ cb ∧ cb ≤ 240 ∧ 16 ≤ cr ∧ cr ≤ 240 then
        { colorInput := s.colorInput, inputType := InputType.ycbcr, currentColor :=
            rgbToHex (ycbcrToRgb y cb cr).r (ycbcrToRgb y cb cr).g (ycbcrToRgb y cb cr).b }
      else s
    by_cases hc : 16 ≤ y ∧ y ≤ 235 ∧ 16 ≤ cb ∧ cb ≤ 240 ∧ 16 ≤ cr ∧ cr ≤ 240
    · rw [if_pos hc, if_pos]
      simp [hc.1, hc.2.1, hc.2.2.1, hc.2.2.2.1, hc.2.2.2.2.1, hc.2.2.2.2.2]
    · rw [if_neg hc, if_neg]
      simp only [Bool.and_eq_true, decide_eq_true_eq]
      tauto

/-- C7: for the `rgb` and `ycbcr` formats, validation performs the
leftmost three-integer scan and accepts exactly when every parsed value
lies in the format's declared range, updating the colour from the
parsed values; any out-of-range value rejects the whole input
unchanged (no clamping). -/
theorem validate_scan_characterization (s : AppState) (h : s.colorInput ≠ []) :
    (s.inputType = InputType.rgb →
      validateAndConvertColor s =
        match scanTriple s.colorInput with
        | some (r, g, b) =>
          if r ≤ 255 ∧ g ≤ 255 ∧ b ≤ 255 then { s with currentColor := rgbToHex r g b } else s
        | none => s) ∧
    (s.inputType = InputType.ycbcr →
      validateAndConvertColor s =
        match scanTriple s.colorInput with
        | some (y, cb, cr) =>
          if 16 ≤ y ∧ y ≤ 235 ∧ 16 ≤ cb ∧ cb ≤ 240 ∧ 16 ≤ cr ∧ cr ≤ 240 then
            { s with currentColor :=
                rgbToHex (ycbcrToRgb y cb cr).r (ycbcrToRgb y cb cr).g (ycbcrToRgb y cb cr).b }
          else s
        | none => s) :=
  ⟨validate_rgb_eq s h, validate_ycbcr_eq s h⟩

theorem validate_scan_characterization_witness :
    c7state.colorInput ≠ [] ∧
    ((c7state.inputType = InputType.rgb →
       validateAndConvertColor c7state = { c7state with currentColor := rgbToHex 59 130 246 }) ∧
     (c7state.inputType = InputType.ycbcr →
       validateAndConvertColor c7state = c7state)) :=
  ⟨by decide, validate_scan_characterization c7state (by decide)⟩

/-- C8: whenever the acceptance condition fails, the handler is a
silent no-op: the whole state — in particular the previously accepted
colour — is left unchanged. -/
theorem reject_is_noop (s : AppState) (h : accepts s = false) :
    validateAndConvertColor s = s := by
  by_cases he : s.colorInput = []
  · unfold validateAndConvertColor
    rw [if_pos he]
  · have h' := h
    unfold accepts at h'
    rw [if_neg he] at h'
    cases ht : s.inputType <;> rw [ht] at h'
    · rw [validate_hex_eq s he ht]
      have hp : hexPattern s.colorInput = false := h'
      rw [hp]
      rfl
    · rw [validate_rgb_eq s he ht]
      cases hsc : scanTriple s.colorInput with
      | none => rfl
      | some v =>
        obtain ⟨r, g, b⟩ := v
        show (if r ≤ 255 ∧ g ≤ 255 ∧ b ≤ 255 then
            { s with currentColor := rgbToHex r g b } else s) = s
        rw [if_neg]
        intro hcontra
        rw [hsc] at h'
        have hc : (r ≤ 255 && g ≤ 255 && b ≤ 255) = false := h'
        simp [hcontra.1, hcontra.2.1, hcontra.2.2] at hc
    · rw [validate_ycbcr_eq s he ht]
      cases hsc : scanTriple s.colorInput with
      | none => rfl
      | some v =>
        obtain ⟨y, cb, cr⟩ := v
        show (if 16 ≤ y ∧ y ≤ 235 ∧ 16 ≤ cb ∧ cb ≤ 240 ∧ 16 ≤ cr ∧ cr ≤ 240 then
            { s with currentColor :=
              rgbToHex (ycbcrToRgb y cb cr).r (ycbcrToRgb y cb cr).g (ycbcrToRgb y cb cr).b }
          else s) = s
        rw [if_neg]
        intro hcontra
        rw [hsc] at h'
        have hc : (16 ≤ y && y ≤ 235 && 16 ≤ cb && cb ≤ 240 && 16 ≤ cr && cr ≤ 240) = false := h'
        simp [hcontra.1, hcontra.2.1, hcontra.2.2.1, hcontra.2.2.2.1, hcontra.2.2.2.2.1,
          hcontra.2.2.2.2.2] at hc

theorem reject_is_noop_witness :
    accepts c8state = false ∧ validateAndConvertColor c8state = c8state :=
  ⟨by decide, reject_is_noop c8state (by decide)⟩

/-- C9: switching to a different declared format clears the raw input
text and leaves the current colour — and with it the whole derived
display triple — unchanged. -/
theorem switch_format_clears_input (t : InputType) (s : AppState) (h : t ≠ s.inputType) :
    (setInputType t s).colorInput = [] ∧
    (setInputType t s).currentColor = s.currentColor ∧
    colorInfo (setInputType t s) = colorInfo s := by
  unfold setInputType
  rw [if_neg h]
  exact ⟨rfl, rfl, rfl⟩

theorem switch_format_clears_input_witness :
    InputType.rgb ≠ initState.inputType ∧
    ((setInputType InputType.rgb initState).colorInput = [] ∧
     (setInputType InputType.rgb initState).currentColor = initState.currentColor ∧
     colorInfo (setInputType InputType.rgb initState) = colorInfo initState) :=
  ⟨by decide, switch_format_clears_input InputType.rgb initState (by decide)⟩

/-! ### Claim C10: reachability invariant -/

theorem ycbcrToRgb_channels_le (y cb cr : ℕ) :
    (ycbcrToRgb y cb cr).r ≤ 255 ∧ (ycbcrToRgb y cb cr).g ≤ 255 ∧ (ycbcrToRgb y cb cr).b ≤ 255 := by
  refine ⟨?_, ?_, ?_⟩ <;>
  · simp only [ycbcrToRgb]
    rw [Int.toNat_le]
    exact max_le (by norm_num) (le_trans (min_le_left _ _) (by norm_num))

theorem validate_preserves_good (s : AppState)
    (h : (hexToRgb s.currentColor).isSome = true) :
    (hexToRgb (validateAndConvertColor s).currentColor).isSome = true := by
  by_cases he : s.colorInput = []
  · have hs : validateAndConvertColor s = s := by
      unfold validateAndConvertColor
      rw [if_pos he]
    rw [hs]
    exact h
  · cases ht : s.inputType
    · rw [validate_hex_eq s he ht]
      by_cases hp : hexPattern s.colorInput = true
      · rw [if_pos hp]
        cases hx : hexToRgb (withHash s.colorInput) with
        | none => exact h
        | some v =>
          show (hexToRgb (withHash s.colorInput)).isSome = true
          rw [hx]
          rfl
      · rw [if_neg hp]
        exact h
    · rw [validate_rgb_eq s he ht]
      cases hsc : scanTriple s.colorInput with
      | none => exact h
      | some v =>
        obtain ⟨r, g, b⟩ := v
        show (hexToRgb (if r ≤ 255 ∧ g ≤ 255 ∧ b ≤ 255 then
            { s with currentColor := rgbToHex r g b } else s).currentColor).isSome = true
        by_cases hc : r ≤ 255 ∧ g ≤ 255 ∧ b ≤ 255
        · rw [if_pos hc]
          show (hexToRgb (rgbToHex r g b)).isSome = true
          rw [hexToRgb_rgbToHex r g b hc.1 hc.2.1 hc.2.2]
          rfl
        · rw [if_neg hc]
          exact h
    · rw [validate_ycbcr_eq s he ht]
      cases hsc : scanTriple s.colorInput with
      | none => exact h
      | some v =>
        obtain ⟨y, cb, cr⟩ := v
        show (hexToRgb (if 16 ≤ y ∧ y ≤ 235 ∧ 16 ≤ cb ∧ cb ≤ 240 ∧ 16 ≤ cr ∧ cr ≤ 240 then
            { s with currentColor :=
              rgbToHex (ycbcrToRgb y cb cr).r (ycbcrToRgb y cb cr).g (ycbcrToRgb y cb cr).b }
          else s).currentColor).isSome = true
        by_cases hc : 16 ≤ y ∧ y ≤ 235 ∧ 16 ≤ cb ∧ cb ≤ 240 ∧ 16 ≤ cr ∧ cr ≤ 240
        · rw [if_pos hc]
          show (hexToRgb (rgbToHex (ycbcrToRgb y cb cr).r (ycbcrToRgb y cb cr).g
            (ycbcrToRgb y cb cr).b)).isSome = true
          obtain ⟨h1, h2, h3⟩ := ycbcrToRgb_channels_le y cb cr
          rw [hexToRgb_rgbToHex _ _ _ h1 h2 h3]
          rfl
        · rw [if_neg hc]
          exact h

theorem step_preserves_good (e : Event) (s : AppState)
    (h : (hexToRgb s.currentColor).isSome = true) :
    (hexToRgb (step e s).currentColor).isSome = true := by
  cases e with
  | typeInput text => exact validate_preserves_good _ h
  | clickConvert => exact validate_preserves_good _ h
  | selectType t =>
    show (hexToRgb (setInputType t s).currentColor).isSome = true
    unfold setInputType
    by_cases ht : t = s.inputType
    · rw [if_pos ht]
      exact h
    · rw [if_neg ht]
      exact h

theorem foldl_preserves_good (es : List Event) :
    ∀ s : AppState, (hexToRgb s.currentColor).isSome = true →
      (hexToRgb (es.foldl (fun s e => step e s) s).currentColor).isSome = true := by
  induction es with
  | nil => intro s hs; exact hs
  | cons e es ih =>
    intro s hs
    exact ih _ (step_preserves_good e s hs)

theorem colorInfo_isSome_of (s : AppState)
    (h : (hexToRgb s.currentColor).isSome = true) :
    (colorInfo s).isSome = true := by
  unfold colorInfo
  have hne : ¬ s.currentColor = [] := by
    intro he
    rw [he] at h
    exact absurd h (by decide)
  rw [if_neg hne]
  obtain ⟨v, hv⟩ := Option.isSome_iff_exists.mp h
  rw [hv]
  rfl

/-- C10: from the initial state `'#3B82F6'`, after any sequence of UI
events, the current colour is a string `hexToRgb` accepts, so the
derived display triple is never `null`: every successful update writes
either a `#`-prefixed validated hex string or an output of `rgbToHex`,
both accepted by `hexToRgb`. -/
theorem reachable_color_valid (es : List Event) :
    (hexToRgb (run es).currentColor).isSome = true ∧ (colorInfo (run es)).isSome = true := by
  have h : (hexToRgb (run es).currentColor).isSome = true :=
    foldl_preserves_good es initState (by decide)
  exact ⟨h, colorInfo_isSome_of _ h⟩

end ColourChecker
